import Mathlib

/-!
Shallow embedding of the Pipecat-DG-Gemini-11labs repository's core:
the mulaw codec and audio tee (src/utils.py), phone normalization
(src/restaurant_lookup.py), and the order/call orchestration handlers
(src/outbound/server.py), together with theorems checking the
specification's claims against these definitions.

Layout: all definitions (translated from the source) come first, then all
theorems.  Helper definitions used only inside proofs (`checkPow`,
`posDecode`, `natRound`, `natOK`, `cexRecord`) are marked as such in their
doc comments.
-/

/- ------------------------------------------------------------------ -/
/- Definitions: mulaw codec (src/utils.py lines 16-53)                -/
/- ------------------------------------------------------------------ -/

/-- Entry `i` of the decode table `_ULAW_DECODE` (src/utils.py lines 16-24).
The table is built for `_i in range(256)` with `_u = ~_i & 0xFF`; for an
8-bit value this complement equals `0xFF ^^^ i`.  The `% 256` totalizes the
function on `Nat`; Python `bytes` elements are always `< 256`, where the
two agree. -/
def ULAW_DECODE (i : Nat) : Int :=
  let u : Nat := 0xFF ^^^ (i % 256)
  let sign : Nat := u &&& 0x80
  let exp : Nat := (u >>> 4) &&& 0x07
  let man : Nat := u &&& 0x0F
  let s : Int := (((((man <<< 3) + 0x84) <<< exp : Nat)) : Int) - 0x84
  if sign ≠ 0 then -s else s

/-- The encoder's exponent-segment search (src/utils.py lines 35-39):
`exp = 7; mask = 0x4000; while exp > 0 and not (pcm & mask): exp -= 1; mask >>= 1`.
The mask paired with exponent `e` is `2 ^ (e + 7)`, i.e. `1 <<< (e + 7)`. -/
def findExp (pcm : Nat) : Nat → Nat
  | 0 => 0
  | e + 1 => if pcm &&& (1 <<< (e + 8)) ≠ 0 then e + 1 else findExp pcm e

/-- The exponent segment `_linear_to_ulaw` selects for a sample, exposed as
its own definition so theorems can speak about "the quantization step of
the segment of `pcm`" (the step of segment `e` is `2 ^ (e + 3)`). -/
def ulaw_exp (pcm : Int) : Nat :=
  let mag : Nat := if pcm < 0 then (-pcm).toNat else pcm.toNat
  findExp (min mag 0x7FFF + 0x84) 7

/-- `_linear_to_ulaw` (src/utils.py lines 27-41): sign, magnitude clamp to
15 bits, bias `0x84`, exponent search, 4-bit mantissa, bit-inverted pack.
Since `sign ||| (exp <<< 4) ||| mantissa < 256`, Python's `~x & 0xFF`
equals `0xFF ^^^ x`. -/
def linear_to_ulaw (pcm : Int) : Nat :=
  let sign : Nat := if pcm < 0 then 0x80 else 0
  let mag : Nat := if pcm < 0 then (-pcm).toNat else pcm.toNat
  let p : Nat := min mag 0x7FFF + 0x84
  let exp : Nat := findExp p 7
  let mantissa : Nat := (p >>> (exp + 3)) &&& 0x0F
  0xFF ^^^ (sign ||| (exp <<< 4) ||| mantissa)

/-- `mix_mulaw` (src/utils.py lines 44-53): pointwise decode, sum, clamp to
the signed 16-bit range, re-encode; a position past the end of the shorter
buffer contributes the sample `0`. -/
def mix_mulaw (a b : List Nat) : List Nat :=
  let la := a.length
  let lb := b.length
  let n := max la lb
  (List.range n).map fun i =>
    let sa : Int := if i < la then ULAW_DECODE (a.getD i 0) else 0
    let sb : Int := if i < lb then ULAW_DECODE (b.getD i 0) else 0
    linear_to_ulaw (max (-32768) (min 32767 (sa + sb)))

/- ------------------------------------------------------------------ -/
/- Definitions: proof machinery for the mulaw roundtrip bound        -/
/- ------------------------------------------------------------------ -/

/-- Balanced range checker: `checkPow f k lo = true` iff `f` holds on
`[lo, lo + 2^k)`.  Its reduction depth is `k`, not `2^k`, which keeps
kernel evaluation of large exhaustive checks feasible. -/
def checkPow (f : Nat → Bool) : Nat → Nat → Bool
  | 0, lo => f lo
  | k + 1, lo => checkPow f k lo && checkPow f k (lo + 2 ^ k)

/-- Decoded magnitude the encoder's byte for a nonnegative sample of
magnitude `m` stands for (before bias removal by `- 0x84`). -/
def posDecode (m : Nat) : Nat :=
  let p := min m 0x7FFF + 0x84
  let e := findExp p 7
  let man := (p >>> (e + 3)) &&& 0x0F
  ((man <<< 3) + 0x84) <<< e

/-- Boolean roundtrip check on a nonnegative magnitude, in pure `Nat`
arithmetic so that kernel evaluation is cheap. -/
def natRound (m : Nat) : Bool :=
  let e := findExp (min m 0x7FFF + 0x84) 7
  let d := posDecode m - 0x84
  Nat.ble (max d m - min d m) (2 ^ (e + 3))

/-- Magnitudes at or above `32636 = 0x7FFF - 0x84 + 1` overflow the biased
15-bit range and are excluded; everything below must pass `natRound`. -/
def natOK (n : Nat) : Bool := Nat.ble 32636 n || natRound n

/- ------------------------------------------------------------------ -/
/- Definitions: TeeWebSocket cadence tick (src/utils.py 60-186)      -/
/- ------------------------------------------------------------------ -/


def TICK_MS : Nat := 100

def TICK_SAMPLES : Nat := 8000 * TICK_MS / 1000

/-- The two per-direction audio buffers of a `TeeWebSocket` session
(src/utils.py lines 83-84). -/
structure TeeBuffers where
  inbound_buf : List Nat
  outbound_buf : List Nat

/-- One iteration of `TeeWebSocket._sender_loop`'s body after the sleep
(src/utils.py lines 157-181): drain up to `TICK_SAMPLES` bytes from each
buffer, skip the tick if both chunks are empty, mix if both are non-empty,
otherwise forward the single non-empty chunk (`in_chunk or out_chunk`).
The returned `Option` is the payload of the `playAudio` frame sent to the
listener, `none` when no frame is sent. -/
def sender_tick (s : TeeBuffers) : TeeBuffers × Option (List Nat) :=
  let in_chunk := s.inbound_buf.take TICK_SAMPLES
  let out_chunk := s.outbound_buf.take TICK_SAMPLES
  let s' : TeeBuffers := ⟨s.inbound_buf.drop TICK_SAMPLES, s.outbound_buf.drop TICK_SAMPLES⟩
  if in_chunk = [] ∧ out_chunk = [] then (s', none)
  else if in_chunk ≠ [] ∧ out_chunk ≠ [] then (s', some (mix_mulaw in_chunk out_chunk))
  else (s', some (if in_chunk ≠ [] then in_chunk else out_chunk))

/- ------------------------------------------------------------------ -/
/- Definitions: TeeWebSocket receive/send hooks (src/utils.py 99-137) -/
/- ------------------------------------------------------------------ -/

/-- A frame as returned by the wrapped Starlette websocket's `receive()`:
a dict with a "type" entry and optional "text"/"bytes" entries. -/
structure WSFrame where
  msg_type : String
  text : Option String
  bytes : Option (List Nat)
deriving DecidableEq

/-- An action the tee performs on the wrapped (real) websocket. -/
inductive WSAction
  | sendText (t : String)
deriving DecidableEq

/-- `TeeWebSocket.receive` (src/utils.py lines 99-110) as a pure transition
on the inbound buffer.  `parse_media` abstracts the composite
`json.loads` / `event == "media"` check / payload extraction / base64
decode; `none` stands for any failure or a non-media frame, all swallowed
by the bare `except: pass`.  The first component of the result is the value
returned to the caller. -/
def TeeWebSocket_receive (parse_media : String → Option (List Nat))
    (listener_alive : Bool) (inbound_buf : List Nat) (data : WSFrame) :
    WSFrame × List Nat :=
  let inbound' :=
    if listener_alive then
      match data.text with
      | some t =>
          if t ≠ "" then
            match parse_media t with
            | some payload => inbound_buf ++ payload
            | none => inbound_buf
          else inbound_buf
      | none => inbound_buf
    else inbound_buf
  (data, inbound')

/-- `TeeWebSocket.receive_text` (src/utils.py lines 112-123). -/
def TeeWebSocket_receive_text (parse_media : String → Option (List Nat))
    (listener_alive : Bool) (inbound_buf : List Nat) (text : String) :
    String × List Nat :=
  let inbound' :=
    if listener_alive then
      match parse_media text with
      | some payload => inbound_buf ++ payload
      | none => inbound_buf
    else inbound_buf
  (text, inbound')

/-- `TeeWebSocket.send_text` (src/utils.py lines 127-137): the caller's text
is forwarded verbatim to the wrapped socket first (`await
self._ws.send_text(text)` is the first statement), then the outbound buffer
is updated; `parse_play` abstracts the `json.loads` / `event == "playAudio"`
check / base64 decode. -/
def TeeWebSocket_send_text (parse_play : String → Option (List Nat))
    (listener_alive : Bool) (outbound_buf : List Nat) (text : String) :
    List WSAction × List Nat :=
  let actions := [WSAction.sendText text]
  let outbound' :=
    if listener_alive then
      match parse_play text with
      | some payload => outbound_buf ++ payload
      | none => outbound_buf
    else outbound_buf
  (actions, outbound')

/- ------------------------------------------------------------------ -/
/- Definitions: phone normalization (src/restaurant_lookup.py 18-26) -/
/- ------------------------------------------------------------------ -/

/-- `normalize_phone_number` (src/restaurant_lookup.py lines 18-26). -/
def normalize_phone_number (phone : String) : String :=
  let digits := phone.toList.filter Char.isDigit
  let digits := if digits.length = 10 then '1' :: digits else digits
  if digits.length = 11 ∧ digits.head? = some '1' then
    "+" ++ digits.asString
  else
    "+" ++ digits.asString

/- ------------------------------------------------------------------ -/
/- Definitions: order table and orchestration (server.py)           -/
/- ------------------------------------------------------------------ -/

inductive OrderStatus
  | searching
  | calling_listener
  | calling
  | listener_connected
  | in_progress
  | completed
  | error
deriving DecidableEq, Repr

structure Restaurant where
  name : String
  address : String
  phone_number : String
deriving DecidableEq, Repr

structure OrderRecord where
  status : OrderStatus
  restaurant : Option Restaurant
  recording_url : Option String
  listener_recording_url : Option String
  call_uuid : Option String
  order_type : String
  user_phone : String
  listener_call_uuid : Option String
  listener_ws : Bool
  listener_stream_id : Option String
deriving DecidableEq, Repr

abbrev Orders := List (String × OrderRecord)

def updateOrder : Orders → String → (OrderRecord → OrderRecord) → Orders
  | [], _, _ => []
  | (k, v) :: t, oid, f => (if k = oid then (k, f v) else (k, v)) :: updateOrder t oid f

inductive Leg
  | target
  | listener
deriving DecidableEq

inductive Effect
  | createCall (leg : Leg) (dest : String)
  | startRecording (leg : Leg) (call_uuid : String)
  | hangupCall (call_uuid : String)
deriving DecidableEq

structure StartOrderBody where
  restaurant_query : String
  order_items : String
  payment_method : String
  customer_name : String
  order_type : String
  delivery_address : String
  phone_override : String
  user_phone : String
  special_instructions : String
deriving DecidableEq

structure HandlerResult where
  orders : Orders
  status_code : Nat
  effects : List Effect

def initRecord (body : StartOrderBody) : OrderRecord :=
  { status := .searching
    restaurant := none
    recording_url := none
    listener_recording_url := none
    call_uuid := none
    order_type := body.order_type
    user_phone := body.user_phone
    listener_call_uuid := none
    listener_ws := false
    listener_stream_id := none }

def start_order_dial (os : Orders) (order_id : String) (body : StartOrderBody)
    (create_result : Except String String) : HandlerResult :=
  if body.user_phone ≠ "" then
    let user_phone_norm := normalize_phone_number body.user_phone
    let os := updateOrder os order_id fun o => { o with status := .calling_listener }
    match create_result with
    | .ok request_uuid =>
        ⟨updateOrder os order_id fun o => { o with listener_call_uuid := some request_uuid },
         200, [Effect.createCall .listener user_phone_norm]⟩
    | .error _ =>
        ⟨updateOrder os order_id fun o => { o with status := .error },
         500, [Effect.createCall .listener user_phone_norm]⟩
  else
    let to_phone := (((os.lookup order_id).bind fun o => o.restaurant).map fun r => r.phone_number).getD ""
    let os := updateOrder os order_id fun o => { o with status := .calling }
    match create_result with
    | .ok request_uuid =>
        ⟨updateOrder os order_id fun o => { o with call_uuid := some request_uuid },
         200, [Effect.createCall .target to_phone]⟩
    | .error _ =>
        ⟨updateOrder os order_id fun o => { o with status := .error },
         500, [Effect.createCall .target to_phone]⟩

def start_order (os : Orders) (order_id : String) (body : StartOrderBody)
    (search_result : Except String (Option Restaurant))
    (create_result : Except String String) : HandlerResult :=
  if body.restaurant_query = "" ∨ body.order_items = "" then
    ⟨os, 400, []⟩
  else
    let os := (order_id, initRecord body) :: os
    if body.phone_override ≠ "" then
      let r : Restaurant :=
        ⟨if body.restaurant_query ≠ "" then body.restaurant_query else "Restaurant",
         "", normalize_phone_number body.phone_override⟩
      start_order_dial (updateOrder os order_id fun o => { o with restaurant := some r })
        order_id body create_result
    else
      match search_result with
      | .error _ =>
          ⟨updateOrder os order_id (fun o => { o with status := .error }), 500, []⟩
      | .ok none =>
          ⟨updateOrder os order_id (fun o => { o with status := .error }), 404, []⟩
      | .ok (some r) =>
          start_order_dial (updateOrder os order_id fun o => { o with restaurant := some r })
            order_id body create_result

def plivo_answer (os : Orders) (order_id call_uuid : String) : Orders × List Effect :=
  (if (os.lookup order_id).isSome then
     updateOrder os order_id fun o => { o with status := .in_progress, call_uuid := some call_uuid }
   else os,
   [Effect.startRecording .target call_uuid])

def plivo_answer_listener (os : Orders) (order_id call_uuid : String) : Orders × List Effect :=
  (if (os.lookup order_id).isSome then
     updateOrder os order_id fun o => { o with listener_call_uuid := some call_uuid }
   else os,
   [Effect.startRecording .listener call_uuid])

def call_restaurant (os : Orders) (order_id : String)
    (create_result : Except String String) : Orders × List Effect :=
  match (os.lookup order_id) with
  | none => (os, [])
  | some o =>
    match o.restaurant with
    | none => (os, [])
    | some r =>
      let os := updateOrder os order_id fun x => { x with status := .calling }
      match create_result with
      | .ok request_uuid =>
          (updateOrder os order_id fun x => { x with call_uuid := some request_uuid },
           [Effect.createCall .target r.phone_number])
      | .error _ =>
          (updateOrder os order_id fun x => { x with status := .error },
           [Effect.createCall .target r.phone_number])

def plivo_ws_listener_connect (os : Orders) (order_id stream_id : String)
    (create_result : Except String String) : Orders × List Effect :=
  let os := if (os.lookup order_id).isSome then
      updateOrder os order_id fun o =>
        { o with listener_ws := true, listener_stream_id := some stream_id,
                 status := .listener_connected }
    else os
  call_restaurant os order_id create_result

def plivo_ws_listener_close (os : Orders) (order_id : String) : Orders :=
  if (os.lookup order_id).isSome then
    updateOrder os order_id fun o => { o with listener_ws := false }
  else os

def plivo_hangup_listener (os : Orders) (order_id : String) : Orders :=
  if (os.lookup order_id).isSome then
    updateOrder os order_id fun o => { o with listener_ws := false, listener_call_uuid := none }
  else os

def plivo_hangup (os : Orders) (order_id : String) : Orders × List Effect :=
  match (os.lookup order_id) with
  | none => (os, [])
  | some o =>
    (updateOrder os order_id fun x => { x with status := .completed },
     match o.listener_call_uuid with
     | some u => [Effect.hangupCall u]
     | none => [])

def plivo_target_ws_done (os : Orders) (order_id : String) : Orders :=
  if (os.lookup order_id).isSome then
    updateOrder os order_id fun o => { o with status := .completed }
  else os

abbrev FormDict := List (String × String)

def dictGet (d : FormDict) (k : String) : String := (d.lookup k).getD ""

def orStr (a b : String) : String := if a ≠ "" then a else b

def extract_recording_url (jsonParse : String → Option FormDict) (form_dict : FormDict) : String :=
  let url := orStr (dictGet form_dict "RecordUrl")
      (orStr (dictGet form_dict "RecordingUrl") (dictGet form_dict "record_url"))
  if url = "" ∧ (form_dict.lookup "response").isSome then
    match jsonParse (dictGet form_dict "response") with
    | some nested =>
        orStr (dictGet nested "record_url")
          (orStr (dictGet nested "RecordUrl") (dictGet nested "recording_url"))
    | none => url
  else url

def callback_url (jsonParse : String → Option FormDict) (form_data json_body : Option FormDict) : String :=
  let url := match form_data with
    | some d => extract_recording_url jsonParse d
    | none => ""
  if url = "" then
    match json_body with
    | some d => extract_recording_url jsonParse d
    | none => url
  else url

def plivo_recording_callback (jsonParse : String → Option FormDict) (os : Orders)
    (order_id : String) (form_data json_body : Option FormDict) : Orders :=
  let recording_url := callback_url jsonParse form_data json_body
  if (os.lookup order_id).isSome ∧ recording_url ≠ "" then
    updateOrder os order_id fun o => { o with recording_url := some recording_url }
  else os

def plivo_recording_callback_listener (jsonParse : String → Option FormDict) (os : Orders)
    (order_id : String) (form_data json_body : Option FormDict) : Orders :=
  let recording_url := callback_url jsonParse form_data json_body
  if (os.lookup order_id).isSome ∧ recording_url ≠ "" then
    updateOrder os order_id fun o => { o with listener_recording_url := some recording_url }
  else os

inductive Event
  | answer (order_id callUUID : String)
  | answer_listener (order_id callUUID : String)
  | listener_ws_connect (order_id stream_id : String) (create_result : Except String String)
  | listener_ws_close (order_id : String)
  | hangup (order_id : String)
  | hangup_listener (order_id : String)
  | recording_callback (order_id : String) (form_data json_body : Option FormDict)
  | recording_callback_listener (order_id : String) (form_data json_body : Option FormDict)
  | target_ws_done (order_id : String)

def step (jsonParse : String → Option FormDict) (os : Orders) : Event → Orders × List Effect
  | .answer oid u => plivo_answer os oid u
  | .answer_listener oid u => plivo_answer_listener os oid u
  | .listener_ws_connect oid sid cr => plivo_ws_listener_connect os oid sid cr
  | .listener_ws_close oid => (plivo_ws_listener_close os oid, [])
  | .hangup oid => plivo_hangup os oid
  | .hangup_listener oid => (plivo_hangup_listener os oid, [])
  | .recording_callback oid fd jb => (plivo_recording_callback jsonParse os oid fd jb, [])
  | .recording_callback_listener oid fd jb => (plivo_recording_callback_listener jsonParse os oid fd jb, [])
  | .target_ws_done oid => (plivo_target_ws_done os oid, [])

def run (jsonParse : String → Option FormDict) (os : Orders) : List Event → Orders × List Effect
  | [] => (os, [])
  | e :: es =>
      let r1 := step jsonParse os e
      let r2 := run jsonParse r1.1 es
      (r2.1, r1.2 ++ r2.2)

def isListenerConnect : Event → Bool
  | .listener_ws_connect _ _ _ => true
  | _ => false

def Event.orderId : Event → String
  | .answer oid _ => oid
  | .answer_listener oid _ => oid
  | .listener_ws_connect oid _ _ => oid
  | .listener_ws_close oid => oid
  | .hangup oid => oid
  | .hangup_listener oid => oid
  | .recording_callback oid _ _ => oid
  | .recording_callback_listener oid _ _ => oid
  | .target_ws_done oid => oid

/-- Order record as created and dialed by the direct flow: `call_uuid` holds
the creation-time `request_uuid`. -/
def cexRecord : OrderRecord :=
  { status := .calling, restaurant := none, recording_url := none,
    listener_recording_url := none, call_uuid := some "REQ-1",
    order_type := "pickup", user_phone := "",
    listener_call_uuid := none, listener_ws := false, listener_stream_id := none }

/- ------------------------------------------------------------------ -/
/- Theorems                                                          -/
/- ------------------------------------------------------------------ -/

theorem checkPow_spec (f : Nat → Bool) :
    ∀ k lo, checkPow f k lo = true → ∀ i, i < 2 ^ k → f (lo + i) = true := by
  intro k
  induction k with
  | zero =>
    intro lo h i hi
    interval_cases i
    simpa [checkPow] using h
  | succ k ih =>
    intro lo h i hi
    simp only [checkPow, Bool.and_eq_true] at h
    by_cases hc : i < 2 ^ k
    · exact ih lo h.1 i hc
    · have h2 : i - 2 ^ k < 2 ^ k := by
        have := Nat.pow_succ 2 k
        omega
    -- fold the shifted index back
      have h3 := ih (lo + 2 ^ k) h.2 (i - 2 ^ k) h2
      have he : lo + 2 ^ k + (i - 2 ^ k) = lo + i := by omega
      rwa [he] at h3

set_option maxHeartbeats 4000000 in
theorem natOK_all : checkPow natOK 15 0 = true := by decide

theorem natRound_true (m : Nat) (hm : m ≤ 32635) : natRound m = true := by
  have h := checkPow_spec natOK 15 0 natOK_all m (by omega)
  simp only [Nat.zero_add, natOK, Bool.or_eq_true, Nat.ble_eq] at h
  rcases h with h | h
  · omega
  · exact h

theorem findExp_le (pcm : Nat) : ∀ k, findExp pcm k ≤ k := by
  intro k
  induction k with
  | zero => simp [findExp]
  | succ k ih =>
    simp only [findExp]
    split
    · exact Nat.le_refl _
    · exact Nat.le_trans ih (Nat.le_succ k)

/-- Field-extraction facts about the packed byte, checked exhaustively over
the 8 exponents and 16 mantissas. -/
theorem byte_fields : ∀ e < 8, ∀ man < 16,
    ((e <<< 4 ||| man) &&& 0x80 = 0) ∧
    (¬((0x80 ||| (e <<< 4 ||| man)) &&& 0x80 = 0)) ∧
    (((e <<< 4 ||| man) >>> 4) &&& 0x07 = e) ∧
    (((0x80 ||| (e <<< 4 ||| man)) >>> 4) &&& 0x07 = e) ∧
    ((e <<< 4 ||| man) &&& 0x0F = man) ∧
    ((0x80 ||| (e <<< 4 ||| man)) &&& 0x0F = man) ∧
    ((e <<< 4 ||| man) < 256) ∧ ((0x80 ||| (e <<< 4 ||| man)) < 256) := by
  decide

theorem posDecode_ge (m : Nat) : 0x84 ≤ posDecode m := by
  simp only [posDecode]
  generalize findExp (min m 0x7FFF + 0x84) 7 = e
  generalize (min m 0x7FFF + 0x84) >>> (e + 3) &&& 0x0F = w
  rw [Nat.shiftLeft_eq]
  have h1 : (1 : Nat) ≤ 2 ^ e := Nat.one_le_two_pow
  have h2 := Nat.mul_le_mul_left (w <<< 3 + 0x84) h1
  omega

theorem ulaw_exp_natCast (m : Nat) :
    ulaw_exp (m : Int) = findExp (min m 0x7FFF + 0x84) 7 := by
  have hneg : ¬((m : Int) < 0) := Int.not_lt.mpr (Int.natCast_nonneg m)
  simp only [ulaw_exp]
  rw [if_neg hneg, Int.toNat_natCast]

theorem ulaw_exp_negCast (m : Nat) (hm : 0 < m) :
    ulaw_exp (-(m : Int)) = findExp (min m 0x7FFF + 0x84) 7 := by
  simp only [ulaw_exp]
  rw [if_pos (by omega), Int.neg_neg, Int.toNat_natCast]

theorem pos_bridge (m : Nat) :
    ULAW_DECODE (linear_to_ulaw (m : Int)) = (posDecode m : Int) - 0x84 := by
  have hneg : ¬((m : Int) < 0) := Int.not_lt.mpr (Int.natCast_nonneg m)
  simp only [linear_to_ulaw, posDecode]
  rw [if_neg hneg, if_neg hneg, Int.toNat_natCast, Nat.zero_or]
  set p := min m 0x7FFF + 0x84 with hp
  set e := findExp p 7 with he
  set man := (p >>> (e + 3)) &&& 0x0F with hman
  have he8 : e < 8 := Nat.lt_succ_of_le (findExp_le p 7)
  have hman16 : man < 16 := Nat.lt_succ_of_le Nat.and_le_right
  obtain ⟨f1, _, f3, _, f5, _, f7, _⟩ := byte_fields e he8 man hman16
  simp only [ULAW_DECODE]
  have hlt : 0xFF ^^^ (e <<< 4 ||| man) < 256 := by
    have h256 : (256 : Nat) = 2 ^ 8 := by norm_num
    rw [h256] at f7 ⊢
    exact Nat.xor_lt_two_pow (by norm_num) f7
  rw [Nat.mod_eq_of_lt hlt, ← Nat.xor_assoc, Nat.xor_self, Nat.zero_xor, f1, f3, f5]
  simp

theorem neg_bridge (m : Nat) (hm : 0 < m) :
    ULAW_DECODE (linear_to_ulaw (-(m : Int))) = -ULAW_DECODE (linear_to_ulaw (m : Int)) := by
  rw [pos_bridge]
  have hpos : (-(m : Int)) < 0 := by omega
  simp only [linear_to_ulaw, posDecode]
  rw [if_pos hpos, if_pos hpos, Int.neg_neg, Int.toNat_natCast]
  set p := min m 0x7FFF + 0x84 with hp
  set e := findExp p 7 with he
  set man := (p >>> (e + 3)) &&& 0x0F with hman
  have he8 : e < 8 := Nat.lt_succ_of_le (findExp_le p 7)
  have hman16 : man < 16 := Nat.lt_succ_of_le Nat.and_le_right
  obtain ⟨_, f2, _, f4, _, f6, _, f8⟩ := byte_fields e he8 man hman16
  rw [Nat.or_assoc]
  simp only [ULAW_DECODE]
  have hlt : 0xFF ^^^ (0x80 ||| (e <<< 4 ||| man)) < 256 := by
    have h256 : (256 : Nat) = 2 ^ 8 := by norm_num
    rw [h256] at f8 ⊢
    exact Nat.xor_lt_two_pow (by norm_num) f8
  rw [Nat.mod_eq_of_lt hlt, ← Nat.xor_assoc, Nat.xor_self, Nat.zero_xor, f4, f6]
  rw [if_pos f2]

/-- Claim C4 counterexample: at the representable sample `32767`, the biased
magnitude `0x7FFF + 0x84` overflows bit 15, the segment search
misclassifies the sample into segment 0, and the roundtrip collapses to 0,
which is not within one quantization step of `32767`. -/
theorem mulaw_roundtrip_cex :
    ¬ ((ULAW_DECODE (linear_to_ulaw 32767) - 32767).natAbs
        ≤ 2 ^ (ulaw_exp 32767 + 3)) := by decide

/-- Claim C4 (amended): for samples whose biased magnitude fits in 15 bits,
i.e. `|s| ≤ 32635 = 0x7FFF - 0x84`, decoding the encoded byte yields a
value within one quantization step `2 ^ (exp + 3)` of the sample, where
`exp` is the exponent segment the encoder selects. -/
theorem mulaw_roundtrip_within_step (s : Int) (h1 : -32635 ≤ s) (h2 : s ≤ 32635) :
    (ULAW_DECODE (linear_to_ulaw s) - s).natAbs ≤ 2 ^ (ulaw_exp s + 3) := by
  rcases Int.le_or_lt 0 s with hs | hs
  · obtain ⟨m, rfl⟩ : ∃ m : Nat, s = (m : Int) := ⟨s.toNat, (Int.toNat_of_nonneg hs).symm⟩
    have hm : m ≤ 32635 := by exact_mod_cast h2
    have hr := natRound_true m hm
    simp only [natRound, Nat.ble_eq] at hr
    have hge := posDecode_ge m
    rw [pos_bridge, ulaw_exp_natCast]
    rcases Nat.le_total (posDecode m - 0x84) m with hc | hc
    · rw [Nat.max_eq_right hc, Nat.min_eq_left hc] at hr
      omega
    · rw [Nat.max_eq_left hc, Nat.min_eq_right hc] at hr
      omega
  · obtain ⟨m, hm0, rfl⟩ : ∃ m : Nat, 0 < m ∧ s = -(m : Int) := by
      refine ⟨(-s).toNat, by omega, ?_⟩
      have : ((-s).toNat : Int) = -s := Int.toNat_of_nonneg (by omega)
      omega
    have hm : m ≤ 32635 := by
      have : ((m : Nat) : Int) ≤ 32635 := by omega
      exact_mod_cast this
    have hr := natRound_true m hm
    simp only [natRound, Nat.ble_eq] at hr
    have hge := posDecode_ge m
    rw [neg_bridge m hm0, pos_bridge, ulaw_exp_negCast m hm0]
    rcases Nat.le_total (posDecode m - 0x84) m with hc | hc
    · rw [Nat.max_eq_right hc, Nat.min_eq_left hc] at hr
      omega
    · rw [Nat.max_eq_left hc, Nat.min_eq_right hc] at hr
      omega

/-- Claim C4 witness: the amended roundtrip bound instantiated at the
sample `1000`. -/
theorem mulaw_roundtrip_within_step_witness :
    (-32635 ≤ (1000 : Int)) ∧ ((1000 : Int) ≤ 32635) ∧
      (ULAW_DECODE (linear_to_ulaw 1000) - 1000).natAbs ≤ 2 ^ (ulaw_exp 1000 + 3) :=
  ⟨by decide, by decide, mulaw_roundtrip_within_step 1000 (by decide) (by decide)⟩

/-- Claim C5: for all same-length mulaw byte buffers `a` and `b`,
`mix_mulaw a b = mix_mulaw b a` — each output byte is the encoding of the
clamped sum of the two decoded samples, with no asymmetric treatment of the
two directions (the proof swaps the summands pointwise). -/
theorem mix_mulaw_comm (a b : List Nat) (_h : a.length = b.length) :
    mix_mulaw a b = mix_mulaw b a := by
  simp only [mix_mulaw]
  rw [Nat.max_comm]
  refine List.map_congr_left ?_
  intro i _
  rw [Int.add_comm]

theorem mix_mulaw_comm_witness :
    ([0x00, 0x80] : List Nat).length = ([0xFF, 0x42] : List Nat).length ∧
      mix_mulaw [0x00, 0x80] [0xFF, 0x42] = mix_mulaw [0xFF, 0x42] [0x00, 0x80] :=
  ⟨rfl, mix_mulaw_comm [0x00, 0x80] [0xFF, 0x42] rfl⟩

theorem ULAW_DECODE_mod (c : Nat) : ULAW_DECODE c = ULAW_DECODE (c % 256) := by
  simp only [ULAW_DECODE, Nat.mod_mod_of_dvd c dvd_rfl]

set_option maxRecDepth 4096 in
theorem decode_encode_ball : ∀ d < 256,
    ULAW_DECODE (linear_to_ulaw (max (-32768) (min 32767 (ULAW_DECODE d)))) = ULAW_DECODE d := by
  decide

theorem decode_encode_clamp (c : Nat) :
    ULAW_DECODE (linear_to_ulaw (max (-32768) (min 32767 (ULAW_DECODE c)))) = ULAW_DECODE c := by
  rw [ULAW_DECODE_mod c]
  exact decode_encode_ball (c % 256) (Nat.mod_lt c (by norm_num))

/-- Claim C9: `mix_mulaw` is total on every pair of byte buffers; the
output length always equals `max (len a) (len b)` (missing positions of the
shorter buffer are treated as silence), and mixing with the empty buffer
decodes sample-for-sample to the same linear values as the original. -/
theorem mix_mulaw_length_and_silence :
    (∀ a b : List Nat, (mix_mulaw a b).length = max a.length b.length) ∧
    (∀ a : List Nat, ∀ i, i < a.length →
      ULAW_DECODE ((mix_mulaw a []).getD i 0) = ULAW_DECODE (a.getD i 0)) := by
  constructor
  · intro a b
    simp [mix_mulaw]
  · intro a i hi
    have hlen : (mix_mulaw a []).length = a.length := by simp [mix_mulaw]
    rw [List.getD_eq_getElem _ _ (by omega)]
    simp only [mix_mulaw, List.length_nil, Nat.max_zero, List.getElem_map,
               List.getElem_range, List.length_map, List.length_range]
    rw [if_pos]
    · simp only [Nat.not_lt_zero, if_false, add_zero]
      exact decode_encode_clamp (a.getD i 0)
    · simpa using hi

theorem mix_mulaw_length_and_silence_witness :
    (0 : Nat) < ([0x7F, 0x13] : List Nat).length ∧
      ULAW_DECODE ((mix_mulaw [0x7F, 0x13] []).getD 0 0) = ULAW_DECODE (([0x7F, 0x13] : List Nat).getD 0 0) :=
  ⟨by decide, mix_mulaw_length_and_silence.2 [0x7F, 0x13] 0 (by decide)⟩

theorem normalize_phone_eq (z : String) :
    normalize_phone_number z =
      "+" ++ (if (z.toList.filter Char.isDigit).length = 10
              then '1' :: z.toList.filter Char.isDigit
              else z.toList.filter Char.isDigit).asString := by
  simp only [normalize_phone_number, ite_self]

theorem normalize_toList (z : String) :
    (normalize_phone_number z).toList =
      '+' :: (if (z.toList.filter Char.isDigit).length = 10
              then '1' :: z.toList.filter Char.isDigit
              else z.toList.filter Char.isDigit) := by
  rw [normalize_phone_eq]
  show (_ ++ _ : String).data = _
  rw [String.data_append]
  rw [show ((if (z.toList.filter Char.isDigit).length = 10
      then '1' :: z.toList.filter Char.isDigit
      else z.toList.filter Char.isDigit).asString).data
    = (if (z.toList.filter Char.isDigit).length = 10
      then '1' :: z.toList.filter Char.isDigit
      else z.toList.filter Char.isDigit) from List.toList_asString _]
  rfl

theorem filter_digits_normalize (z : String) :
    (normalize_phone_number z).toList.filter Char.isDigit =
      (if (z.toList.filter Char.isDigit).length = 10
       then '1' :: z.toList.filter Char.isDigit
       else z.toList.filter Char.isDigit) := by
  rw [normalize_toList, List.filter_cons_of_neg (by decide)]
  rw [List.filter_eq_self.mpr]
  intro a ha
  by_cases hc : (z.toList.filter Char.isDigit).length = 10
  · rw [if_pos hc] at ha
    rcases List.mem_cons.mp ha with h1 | h2
    · subst h1; decide
    · exact List.of_mem_filter h2
  · rw [if_neg hc] at ha
    exact List.of_mem_filter ha

/-- Claim C10: `normalize_phone_number` is idempotent on every input
string, and its output is always `"+"` followed by the decimal digits
extracted from the input, with `'1'` prepended exactly when the input
contains exactly 10 digits. -/
theorem normalize_phone_number_spec (x : String) :
    normalize_phone_number (normalize_phone_number x) = normalize_phone_number x ∧
    normalize_phone_number x =
      "+" ++ (if (x.toList.filter Char.isDigit).length = 10
              then ('1' :: x.toList.filter Char.isDigit).asString
              else (x.toList.filter Char.isDigit).asString) := by
  constructor
  · rw [normalize_phone_eq (normalize_phone_number x), filter_digits_normalize x]
    have hne : (if (x.toList.filter Char.isDigit).length = 10
        then '1' :: x.toList.filter Char.isDigit
        else x.toList.filter Char.isDigit).length ≠ 10 := by
      by_cases hc : (x.data.filter Char.isDigit).length = 10 <;> simp [String.toList, hc]
    rw [if_neg hne, normalize_phone_eq x]
  · rw [normalize_phone_eq x]
    by_cases hc : (x.data.filter Char.isDigit).length = 10 <;> simp [String.toList, hc]

/-- Claim C1: one iteration of the cadence loop's tick drains at most
`TICK_SAMPLES = 800` bytes from each of the inbound and outbound buffers
independently; when both drained chunks are non-empty the emitted payload is
`mix_mulaw` of the two chunks, when exactly one is non-empty that chunk is
emitted unmixed, and when both are empty no listener frame is produced. -/
theorem sender_tick_spec (s : TeeBuffers) :
    TICK_SAMPLES = 800 ∧
    (sender_tick s).1.inbound_buf = s.inbound_buf.drop 800 ∧
    (sender_tick s).1.outbound_buf = s.outbound_buf.drop 800 ∧
    s.inbound_buf.length - (sender_tick s).1.inbound_buf.length ≤ 800 ∧
    s.outbound_buf.length - (sender_tick s).1.outbound_buf.length ≤ 800 ∧
    (s.inbound_buf.take 800 ≠ [] → s.outbound_buf.take 800 ≠ [] →
      (sender_tick s).2 = some (mix_mulaw (s.inbound_buf.take 800) (s.outbound_buf.take 800))) ∧
    (s.inbound_buf.take 800 ≠ [] → s.outbound_buf.take 800 = [] →
      (sender_tick s).2 = some (s.inbound_buf.take 800)) ∧
    (s.inbound_buf.take 800 = [] → s.outbound_buf.take 800 ≠ [] →
      (sender_tick s).2 = some (s.outbound_buf.take 800)) ∧
    (s.inbound_buf.take 800 = [] → s.outbound_buf.take 800 = [] →
      (sender_tick s).2 = none) := by
  have ht : TICK_SAMPLES = 800 := rfl
  have hfst : (sender_tick s).1 = ⟨s.inbound_buf.drop 800, s.outbound_buf.drop 800⟩ := by
    simp only [sender_tick, ht]
    split
    · rfl
    · split <;> rfl
  refine ⟨rfl, by rw [hfst], by rw [hfst], ?_, ?_, ?_, ?_, ?_, ?_⟩
  · rw [hfst]
    simp only [List.length_drop]
    omega
  · rw [hfst]
    simp only [List.length_drop]
    omega
  · intro h1 h2
    simp only [sender_tick, ht]
    rw [if_neg (by tauto), if_pos ⟨h1, h2⟩]
  · intro h1 h2
    simp only [sender_tick, ht]
    rw [if_neg (by tauto), if_neg (by tauto), if_pos h1]
  · intro h1 h2
    simp only [sender_tick, ht]
    rw [if_neg (by tauto), if_neg (by tauto), if_neg (by simp [h1])]
  · intro h1 h2
    simp only [sender_tick, ht]
    rw [if_pos ⟨h1, h2⟩]

/-- Claim C1 witness: a tick on a one-byte inbound buffer and empty
outbound buffer emits that byte unmixed. -/
theorem sender_tick_spec_witness :
    (sender_tick ⟨[0xFF], []⟩).2 = some [0xFF] := by
  have h := (sender_tick_spec ⟨[0xFF], []⟩).2.2.2.2.2.2.1
  exact h (by decide) (by decide)


/-- Claim C7: the voice-agent pipeline observes on a teed connection exactly
what it would observe on the raw connection: `receive`/`receive_text` return
the wrapped socket's data unmodified, whatever the tee's own JSON/base64
parsing does (including failure), and `send_text` forwards the caller's
text verbatim to the wrapped socket as its only socket action, before any
tee-side buffering. -/
theorem tee_transparent (parse_media parse_play : String → Option (List Nat))
    (alive : Bool) (ibuf obuf : List Nat) (data : WSFrame) (text : String) :
    (TeeWebSocket_receive parse_media alive ibuf data).1 = data ∧
    (TeeWebSocket_receive_text parse_media alive ibuf text).1 = text ∧
    (TeeWebSocket_send_text parse_play alive obuf text).1 = [WSAction.sendText text] :=
  ⟨rfl, rfl, rfl⟩

theorem lookup_updateOrder (os : Orders) (oid oid' : String) (f : OrderRecord → OrderRecord) :
    (updateOrder os oid f).lookup oid' =
      if oid' = oid then (os.lookup oid').map f else os.lookup oid' := by
  induction os with
  | nil => simp [updateOrder]
  | cons p t ih =>
    obtain ⟨k, v⟩ := p
    simp only [updateOrder]
    by_cases h1 : k = oid
    · rw [if_pos h1]
      subst h1
      by_cases h2 : oid' = k
      · subst h2
        simp [List.lookup]
      · simp [List.lookup, beq_eq_false_iff_ne.mpr h2, ih]
    · rw [if_neg h1]
      by_cases h2 : oid' = k
      · subst h2
        rw [if_neg h1]
        simp [List.lookup]
      · simp [List.lookup, beq_eq_false_iff_ne.mpr h2, ih]

theorem updateOrder_updateOrder (os : Orders) (oid : String) (f g : OrderRecord → OrderRecord) :
    updateOrder (updateOrder os oid f) oid g = updateOrder os oid (g ∘ f) := by
  induction os with
  | nil => rfl
  | cons p t ih =>
    obtain ⟨k, v⟩ := p
    by_cases h : k = oid
    · have hin : updateOrder ((k, v) :: t) oid f = (k, f v) :: updateOrder t oid f := by
        simp [updateOrder, if_pos h]
      have hrhs : updateOrder ((k, v) :: t) oid (g ∘ f) = (k, g (f v)) :: updateOrder t oid (g ∘ f) := by
        simp [updateOrder, if_pos h, Function.comp]
      have hout : updateOrder ((k, f v) :: updateOrder t oid f) oid g
          = (k, g (f v)) :: updateOrder (updateOrder t oid f) oid g := by
        simp [updateOrder, if_pos h]
      rw [hin, hout, ih, hrhs]
    · have hin : updateOrder ((k, v) :: t) oid f = (k, v) :: updateOrder t oid f := by
        simp [updateOrder, if_neg h]
      have hrhs : updateOrder ((k, v) :: t) oid (g ∘ f) = (k, v) :: updateOrder t oid (g ∘ f) := by
        simp [updateOrder, if_neg h]
      have hout : updateOrder ((k, v) :: updateOrder t oid f) oid g
          = (k, v) :: updateOrder (updateOrder t oid f) oid g := by
        simp [updateOrder, if_neg h]
      rw [hin, hout, ih, hrhs]

theorem isSome_lookup_updateOrder (os : Orders) (oid oid' : String) (f : OrderRecord → OrderRecord) :
    ((updateOrder os oid f).lookup oid').isSome = (os.lookup oid').isSome := by
  rw [lookup_updateOrder]
  split <;> simp

/-- Claim C8: a submission whose `restaurant_query` or `order_items` is
empty is rejected with status 400 before any record is created: the order
table is returned unchanged and no provider call is made. -/
theorem start_order_rejects_invalid (os : Orders) (oid : String) (body : StartOrderBody)
    (sr : Except String (Option Restaurant)) (cr : Except String String)
    (h : body.restaurant_query = "" ∨ body.order_items = "") :
    (start_order os oid body sr cr).status_code = 400 ∧
    (start_order os oid body sr cr).orders = os ∧
    (start_order os oid body sr cr).effects = [] := by
  refine ⟨?_, ?_, ?_⟩ <;> simp [start_order, if_pos h]

/-- Claim C8 witness: a concrete submission with an empty
`restaurant_query` is rejected and leaves the empty table unchanged. -/
theorem start_order_rejects_invalid_witness :
    (start_order [] "o1" ⟨"", "1 pizza", "cash", "Alex", "pickup", "", "", "", "None"⟩
        (.ok none) (.ok "R")).status_code = 400 ∧
    (start_order [] "o1" ⟨"", "1 pizza", "cash", "Alex", "pickup", "", "", "", "None"⟩
        (.ok none) (.ok "R")).orders = [] :=
  ⟨(start_order_rejects_invalid [] "o1" _ _ _ (Or.inl rfl)).1,
   (start_order_rejects_invalid [] "o1" _ _ _ (Or.inl rfl)).2.1⟩

theorem step_no_target_create (jp : String → Option FormDict) (os : Orders) (e : Event)
    (h : isListenerConnect e = false) (dest : String) :
    Effect.createCall Leg.target dest ∉ (step jp os e).2 := by
  cases e with
  | answer oid u => simp [step, plivo_answer]
  | answer_listener oid u => simp [step, plivo_answer_listener]
  | listener_ws_connect oid sid cr => simp [isListenerConnect] at h
  | listener_ws_close oid => simp [step]
  | hangup oid =>
    cases hl : os.lookup oid with
    | none => simp [step, plivo_hangup, hl]
    | some o =>
      cases ho : o.listener_call_uuid <;> simp [step, plivo_hangup, hl, ho]
  | hangup_listener oid => simp [step]
  | recording_callback oid fd jb => simp [step]
  | recording_callback_listener oid fd jb => simp [step]
  | target_ws_done oid => simp [step]

theorem run_no_target_create (jp : String → Option FormDict) :
    ∀ evs : List Event, ∀ os : Orders,
      (∀ e ∈ evs, isListenerConnect e = false) →
      ∀ dest, Effect.createCall Leg.target dest ∉ (run jp os evs).2 := by
  intro evs
  induction evs with
  | nil => simp [run]
  | cons e es ih =>
    intro os h dest
    simp only [run, List.mem_append]
    rintro (h1 | h2)
    · exact step_no_target_create jp os e (h e (List.mem_cons_self e es)) dest h1
    · exact ih (step jp os e).1 (fun e' he' => h e' (List.mem_cons_of_mem e he')) dest h2

theorem start_order_dial_listener_effects (os : Orders) (oid : String) (body : StartOrderBody)
    (cr : Except String String) (h : body.user_phone ≠ "") :
    ∀ ef ∈ (start_order_dial os oid body cr).effects,
      ∃ d, ef = Effect.createCall Leg.listener d := by
  simp only [start_order_dial, if_pos h]
  cases cr <;> simp

/-- Claim C3: in the listen-in flow (non-empty `user_phone`) the
submission handler's only provider-call effect is creating the listener
leg — never the target leg — and in any event sequence containing no
listener-websocket connect event, no target-leg call creation ever occurs:
the restaurant call is triggered only from the listener WebSocket handler
after the start event is read. -/
theorem listen_in_defers_target_dial :
    (∀ (os : Orders) (oid : String) (body : StartOrderBody)
       (sr : Except String (Option Restaurant)) (cr : Except String String),
       body.user_phone ≠ "" →
       ∀ ef ∈ (start_order os oid body sr cr).effects,
         ∃ d, ef = Effect.createCall Leg.listener d) ∧
    (∀ (jp : String → Option FormDict) (evs : List Event) (os : Orders),
       (∀ e ∈ evs, isListenerConnect e = false) →
       ∀ dest, Effect.createCall Leg.target dest ∉ (run jp os evs).2) := by
  constructor
  · intro os oid body sr cr hup ef hef
    simp only [start_order] at hef
    by_cases hv : body.restaurant_query = "" ∨ body.order_items = ""
    · rw [if_pos hv] at hef
      simp at hef
    · rw [if_neg hv] at hef
      by_cases hpo : body.phone_override ≠ ""
      · rw [if_pos hpo] at hef
        exact start_order_dial_listener_effects _ _ _ _ hup ef hef
      · rw [if_neg hpo] at hef
        cases sr with
        | error _ => simp at hef
        | ok oro =>
          cases oro with
          | none => simp at hef
          | some r => exact start_order_dial_listener_effects _ _ _ _ hup ef hef
  · intro jp evs os h dest
    exact run_no_target_create jp evs os h dest

/-- Claim C3 witness: a run consisting of a hangup and an answer webhook
(no listener connect) creates no target-leg call. -/
theorem listen_in_defers_target_dial_witness :
    Effect.createCall Leg.target "+14155550000" ∉
      (run (fun _ => none) [] [Event.hangup "o1", Event.answer "o1" "C"]).2 :=
  listen_in_defers_target_dial.2 (fun _ => none) [Event.hangup "o1", Event.answer "o1" "C"] []
    (by intro e he
        rcases List.mem_cons.mp he with h1 | h2
        · subst h1; rfl
        · rcases List.mem_cons.mp h2 with h3 | h4
          · subst h3; rfl
          · simp at h4)
    "+14155550000"

theorem step_other_id (jp : String → Option FormDict) (os : Orders) (e : Event) (oid : String)
    (h : oid ≠ e.orderId) :
    ((step jp os e).1.lookup oid) = os.lookup oid := by
  cases e <;>
    simp only [step, Event.orderId, plivo_answer, plivo_answer_listener,
      plivo_ws_listener_connect, call_restaurant, plivo_ws_listener_close,
      plivo_hangup, plivo_hangup_listener, plivo_recording_callback,
      plivo_recording_callback_listener, plivo_target_ws_done] at h ⊢ <;>
    (repeat' split) <;>
    simp_all [lookup_updateOrder]

theorem map_field_preserved {α : Type} (os : Orders) (oid k : String)
    (f : OrderRecord → OrderRecord) (fld : OrderRecord → α)
    (hf : ∀ o, fld (f o) = fld o) :
    ((updateOrder os k f).lookup oid).map fld = (os.lookup oid).map fld := by
  rw [lookup_updateOrder]
  split
  · cases os.lookup oid <;> simp [hf]
  · rfl

/-- Claim C6 counterexample: on a record whose `call_uuid` already holds
the creation-time `request_uuid` `"REQ-1"`, the answer webhook with
`CallUUID = "CALL-2"` unconditionally overwrites the field with a different
value, refuting "once non-null it is never overwritten with a different
value by any handler". -/
theorem call_uuid_overwrite_cex :
    cexRecord.call_uuid = some "REQ-1" ∧
    Option.map (fun o => o.call_uuid)
        ((step (fun _ => none) [("o1", cexRecord)] (Event.answer "o1" "CALL-2")).1.lookup "o1")
      = some (some "CALL-2") ∧
    (some "CALL-2" : Option String) ≠ some "REQ-1" := by
  refine ⟨rfl, ?_, by decide⟩
  rfl

/-- Claim C6 (amended): `call_uuid` is modified only by the answer
webhook for the target leg and by the deferred restaurant dialing performed
on listener-websocket connect; `listener_call_uuid` is modified only by the
listener answer webhook and by the listener hangup webhook (which clears
it); every other handler preserves both fields on every record, and a
duplicate delivery of the same answer webhook (same CallUUID) leaves the
table unchanged. -/
theorem call_uuid_write_classification (jp : String → Option FormDict) (os : Orders)
    (e : Event) (oid : String) :
    (((step jp os e).1.lookup oid).map (fun o => o.call_uuid)
        = ((os.lookup oid).map fun o => o.call_uuid)
      ∨ (∃ u, e = Event.answer oid u)
      ∨ (∃ sid cr, e = Event.listener_ws_connect oid sid cr)) ∧
    (((step jp os e).1.lookup oid).map (fun o => o.listener_call_uuid)
        = ((os.lookup oid).map fun o => o.listener_call_uuid)
      ∨ (∃ u, e = Event.answer_listener oid u)
      ∨ e = Event.hangup_listener oid) ∧
    (∀ u, (step jp (step jp os (Event.answer oid u)).1 (Event.answer oid u)).1
        = (step jp os (Event.answer oid u)).1) ∧
    (∀ u, (step jp (step jp os (Event.answer_listener oid u)).1 (Event.answer_listener oid u)).1
        = (step jp os (Event.answer_listener oid u)).1) := by
  refine ⟨?_, ?_, ?_, ?_⟩
  · cases e with
    | answer oid2 u =>
      by_cases h : oid2 = oid
      · subst h
        exact Or.inr (Or.inl ⟨u, rfl⟩)
      · exact Or.inl (by rw [step_other_id jp os (Event.answer oid2 u) oid (fun hh => h hh.symm)])
    | listener_ws_connect oid2 sid cr =>
      by_cases h : oid2 = oid
      · subst h
        exact Or.inr (Or.inr ⟨sid, cr, rfl⟩)
      · exact Or.inl (by rw [step_other_id jp os (Event.listener_ws_connect oid2 sid cr) oid (fun hh => h hh.symm)])
    | answer_listener oid2 u =>
      refine Or.inl ?_
      simp only [step, plivo_answer_listener]
      split
      · exact map_field_preserved os oid oid2 _ _ (fun o => rfl)
      · rfl
    | listener_ws_close oid2 =>
      refine Or.inl ?_
      simp only [step, plivo_ws_listener_close]
      split
      · exact map_field_preserved os oid oid2 _ _ (fun o => rfl)
      · rfl
    | hangup oid2 =>
      refine Or.inl ?_
      simp only [step, plivo_hangup]
      split
      · rfl
      · exact map_field_preserved os oid oid2 _ _ (fun o => rfl)
    | hangup_listener oid2 =>
      refine Or.inl ?_
      simp only [step, plivo_hangup_listener]
      split
      · exact map_field_preserved os oid oid2 _ _ (fun o => rfl)
      · rfl
    | recording_callback oid2 fd jb =>
      refine Or.inl ?_
      simp only [step, plivo_recording_callback]
      split
      · exact map_field_preserved os oid oid2 _ _ (fun o => rfl)
      · rfl
    | recording_callback_listener oid2 fd jb =>
      refine Or.inl ?_
      simp only [step, plivo_recording_callback_listener]
      split
      · exact map_field_preserved os oid oid2 _ _ (fun o => rfl)
      · rfl
    | target_ws_done oid2 =>
      refine Or.inl ?_
      simp only [step, plivo_target_ws_done]
      split
      · exact map_field_preserved os oid oid2 _ _ (fun o => rfl)
      · rfl
  · cases e with
    | answer_listener oid2 u =>
      by_cases h : oid2 = oid
      · subst h
        exact Or.inr (Or.inl ⟨u, rfl⟩)
      · exact Or.inl (by rw [step_other_id jp os (Event.answer_listener oid2 u) oid (fun hh => h hh.symm)])
    | hangup_listener oid2 =>
      by_cases h : oid2 = oid
      · subst h
        exact Or.inr (Or.inr rfl)
      · exact Or.inl (by rw [step_other_id jp os (Event.hangup_listener oid2) oid (fun hh => h hh.symm)])
    | answer oid2 u =>
      refine Or.inl ?_
      simp only [step, plivo_answer]
      split
      · exact map_field_preserved os oid oid2 _ _ (fun o => rfl)
      · rfl
    | listener_ws_connect oid2 sid cr =>
      refine Or.inl ?_
      have key : ∀ os' : Orders,
          ((os'.lookup oid).map fun o => o.listener_call_uuid)
            = ((os.lookup oid).map fun o => o.listener_call_uuid) →
          (((call_restaurant os' oid2 cr).1.lookup oid).map fun o => o.listener_call_uuid)
            = ((os.lookup oid).map fun o => o.listener_call_uuid) := by
        intro os' hos'
        simp only [call_restaurant]
        repeat' split
        all_goals
          first
          | exact hos'
          | (refine Eq.trans (map_field_preserved _ oid oid2 _ _ ?_)
                (Eq.trans (map_field_preserved _ oid oid2 _ _ ?_) hos') <;>
              exact fun o => rfl)
      simp only [step, plivo_ws_listener_connect]
      by_cases c1 : (os.lookup oid2).isSome
      · rw [if_pos c1]
        refine key _ (map_field_preserved os oid oid2 _ _ ?_)
        exact fun o => rfl
      · rw [if_neg c1]
        exact key _ rfl
    | listener_ws_close oid2 =>
      refine Or.inl ?_
      simp only [step, plivo_ws_listener_close]
      split
      · exact map_field_preserved os oid oid2 _ _ (fun o => rfl)
      · rfl
    | hangup oid2 =>
      refine Or.inl ?_
      simp only [step, plivo_hangup]
      split
      · rfl
      · exact map_field_preserved os oid oid2 _ _ (fun o => rfl)
    | recording_callback oid2 fd jb =>
      refine Or.inl ?_
      simp only [step, plivo_recording_callback]
      split
      · exact map_field_preserved os oid oid2 _ _ (fun o => rfl)
      · rfl
    | recording_callback_listener oid2 fd jb =>
      refine Or.inl ?_
      simp only [step, plivo_recording_callback_listener]
      split
      · exact map_field_preserved os oid oid2 _ _ (fun o => rfl)
      · rfl
    | target_ws_done oid2 =>
      refine Or.inl ?_
      simp only [step, plivo_target_ws_done]
      split
      · exact map_field_preserved os oid oid2 _ _ (fun o => rfl)
      · rfl
  · intro u
    simp only [step, plivo_answer]
    by_cases c : (os.lookup oid).isSome
    · rw [if_pos c, if_pos (by rw [isSome_lookup_updateOrder]; exact c),
          updateOrder_updateOrder]
      rfl
    · rw [if_neg c, if_neg c]
  · intro u
    simp only [step, plivo_answer_listener]
    by_cases c : (os.lookup oid).isSome
    · rw [if_pos c, if_pos (by rw [isSome_lookup_updateOrder]; exact c),
          updateOrder_updateOrder]
      rfl
    · rw [if_neg c, if_neg c]

/-- Claim C2: a second delivery of the same recording-ready webhook for
either leg is an idempotent no-op — applying the handler twice with the
same payload equals applying it once, so an already-set
`recording_url` / `listener_recording_url` is not changed by the duplicate
and the handler never raises — and neither handler ever resets a non-null
URL back to null, so the field transitions null to non-null exactly once. -/
theorem recording_callback_idempotent (jp : String → Option FormDict) (os : Orders)
    (oid : String) (fd jb : Option FormDict) :
    plivo_recording_callback jp (plivo_recording_callback jp os oid fd jb) oid fd jb
        = plivo_recording_callback jp os oid fd jb ∧
    plivo_recording_callback_listener jp (plivo_recording_callback_listener jp os oid fd jb) oid fd jb
        = plivo_recording_callback_listener jp os oid fd jb ∧
    (∀ oid' u, (os.lookup oid').map (fun o => o.recording_url) = some (some u) →
       ∃ v, ((plivo_recording_callback jp os oid fd jb).lookup oid').map (fun o => o.recording_url)
          = some (some v)) ∧
    (∀ oid' u, (os.lookup oid').map (fun o => o.listener_recording_url) = some (some u) →
       ∃ v, ((plivo_recording_callback_listener jp os oid fd jb).lookup oid').map
              (fun o => o.listener_recording_url)
          = some (some v)) := by
  refine ⟨?_, ?_, ?_, ?_⟩
  · simp only [plivo_recording_callback]
    by_cases c : ((os.lookup oid).isSome = true ∧ callback_url jp fd jb ≠ "")
    · rw [if_pos c, if_pos ⟨by rw [isSome_lookup_updateOrder]; exact c.1, c.2⟩,
          updateOrder_updateOrder]
      rfl
    · rw [if_neg c, if_neg c]
  · simp only [plivo_recording_callback_listener]
    by_cases c : ((os.lookup oid).isSome = true ∧ callback_url jp fd jb ≠ "")
    · rw [if_pos c, if_pos ⟨by rw [isSome_lookup_updateOrder]; exact c.1, c.2⟩,
          updateOrder_updateOrder]
      rfl
    · rw [if_neg c, if_neg c]
  · intro oid' u hu
    simp only [plivo_recording_callback]
    split
    · rw [lookup_updateOrder]
      split
    -- same record: the handler wrote a fresh non-null URL
      · cases hl : os.lookup oid' with
        | none => rw [hl] at hu; simp at hu
        | some o => exact ⟨callback_url jp fd jb, rfl⟩
      · exact ⟨u, hu⟩
    · exact ⟨u, hu⟩
  · intro oid' u hu
    simp only [plivo_recording_callback_listener]
    split
    · rw [lookup_updateOrder]
      split
      · cases hl : os.lookup oid' with
        | none => rw [hl] at hu; simp at hu
        | some o => exact ⟨callback_url jp fd jb, rfl⟩
      · exact ⟨u, hu⟩
    · exact ⟨u, hu⟩

/-- Claim C2 witness: on a record whose recording URL is already set, a
duplicate callback delivery leaves the URL non-null. -/
theorem recording_callback_idempotent_witness :
    ∃ v, ((plivo_recording_callback (fun _ => none)
        [("o1", { cexRecord with recording_url := some "https://r/1" })]
        "o1" none none).lookup "o1").map (fun o => o.recording_url) = some (some v) :=
  (recording_callback_idempotent (fun _ => none)
      [("o1", { cexRecord with recording_url := some "https://r/1" })] "o1" none none).2.2.1
    "o1" "https://r/1" rfl
